import Mathlib

/-!
Verification of the capacity-and-waitlist subsystem of the terpspark
backend (app/services/registration_service.py together with
app/repositories/registration_repository.py and
app/repositories/waitlist_repository.py).

The state of one event's slice of the database is embedded as a pure
structure `SysState`; each service method becomes a pure function that
either returns an `ApiError` (the `HTTPException` the Python code raises
before any database write) or the post-commit state.  Nondeterministic
inputs of the source (uuid4 row ids, the clock-derived ticket code, the
QR payload, the cancellation timestamp) are passed in as explicit
parameters.  Python integers are embedded as `Int`; waitlist positions,
which the source only ever assigns from `max+1` starting at 1 and only
ever decrements on entries strictly above a removed position, are
embedded as `Nat`.
-/

namespace TerpSpark

/-- Registration status values (app/models/registration.py). -/
inductive RegistrationStatus where
  | confirmed
  | cancelled
deriving DecidableEq, Repr

/-- Event status values (app/models/event.py). -/
inductive EventStatus where
  | draft
  | pending
  | published
  | cancelled
deriving DecidableEq, Repr

/-- The string stored for each event status (`EventStatus(str, enum.Enum)`). -/
def EventStatus.value : EventStatus → String
  | .draft => "draft"
  | .pending => "pending"
  | .published => "published"
  | .cancelled => "cancelled"

/-- Notification preference values (app/models/waitlist.py). -/
inductive NotificationPreference where
  | email
  | sms
  | both
deriving DecidableEq, Repr

/-- A guest object as stored in a registration's JSON `guests` column:
`{"name": ..., "email": ...}`. -/
structure Guest where
  name : String
  email : String
deriving DecidableEq, Repr

/-- A row of the `registrations` table (app/models/registration.py),
restricted to the fields the capacity/waitlist subsystem reads or
writes.  `cancelledAt` is `some t` once `cancelled_at` has been stamped.
Fields not touched by this subsystem (`check_in_status`, `checked_in_at`,
`reminder_sent`, `registered_at`) are omitted. -/
structure Registration where
  id : String
  userId : String
  status : RegistrationStatus
  ticketCode : String
  qrCode : String
  guests : List Guest
  sessions : List String
  cancelledAt : Option Nat
deriving DecidableEq, Repr

/-- A row of the `waitlist` table (app/models/waitlist.py), restricted to
the fields the subsystem uses.  `joined_at` is omitted (only read by the
unmodelled per-user listing). -/
structure WaitlistEntry where
  id : String
  userId : String
  position : Nat
  notificationPreference : NotificationPreference
deriving DecidableEq, Repr

/-- The capacity-ledger slice of an `events` row (app/models/event.py):
`capacity`, `registered_count`, `waitlist_count`, `status`.  `datePast`
embeds the boolean `event.date and event.date < date.today()` used by
the past-event precondition. -/
structure EventData where
  id : String
  capacity : Int
  registeredCount : Int
  waitlistCount : Int
  status : EventStatus
  datePast : Bool
deriving DecidableEq, Repr

/-- A row of the `users` table, restricted to what the subsystem reads:
the id (for `get_by_id`) and the email (for the guest lookup
`get_by_email`). -/
structure User where
  id : String
  email : String
deriving DecidableEq, Repr

/-- One event's slice of the database: the event row (`none` once the
row has been deleted), all registrations for that event, all waitlist
entries for that event, and the user table.  Distinct events are fully
independent in the source (every query filters on `event_id`), so a
single-event state loses nothing. -/
structure SysState where
  event : Option EventData
  registrations : List Registration
  waitlist : List WaitlistEntry
  users : List User
deriving DecidableEq, Repr

/-- The data of an `HTTPException`: status code, `detail` string, and
extra response headers. -/
structure ApiError where
  statusCode : Nat
  detail : String
  headers : List (String × String)
deriving DecidableEq, Repr

/-- Python `str.lower()` (over the ASCII range; email addresses and
preference strings in this system are ASCII). -/
def pyLower (s : String) : String :=
  ⟨s.data.map (fun ch =>
    if 65 ≤ ch.toNat ∧ ch.toNat ≤ 90 then Char.ofNat (ch.toNat + 32) else ch)⟩

/-- Python `str.endswith(t)`: `t` is a suffix of `s`. -/
def pyEndsWith (s t : String) : Bool := t.data.isSuffixOf s.data

namespace RegistrationRepository

/-- `RegistrationRepository.get_by_user_and_event`: the first
registration of the user for this event whose status is CONFIRMED. -/
def get_by_user_and_event (s : SysState) (userId : String) : Option Registration :=
  s.registrations.find? (fun r =>
    r.userId == userId && r.status == RegistrationStatus.confirmed)

/-- `RegistrationRepository.get_event_registrations` with
`status=CONFIRMED`, as called from the guest duplicate check. -/
def get_event_registrations (s : SysState) : List Registration :=
  s.registrations.filter (fun r => r.status == RegistrationStatus.confirmed)

/-- `RegistrationRepository.get_by_id` (status is not filtered). -/
def get_by_id (s : SysState) (registrationId : String) : Option Registration :=
  s.registrations.find? (fun r => r.id == registrationId)

end RegistrationRepository

namespace UserRepository

/-- `UserRepository.get_by_id`. -/
def get_by_id (s : SysState) (userId : String) : Option User :=
  s.users.find? (fun u => u.id == userId)

/-- `UserRepository.get_by_email`: `filter(User.email == email.lower()).first()`. -/
def get_by_email (s : SysState) (email : String) : Option User :=
  s.users.find? (fun u => u.email == pyLower email)

end UserRepository

namespace WaitlistRepository

/-- `WaitlistRepository.get_by_user_and_event` (no status filter on
waitlist rows). -/
def get_by_user_and_event (s : SysState) (userId : String) : Option WaitlistEntry :=
  s.waitlist.find? (fun e => e.userId == userId)

/-- `WaitlistRepository.get_by_id`. -/
def get_by_id (s : SysState) (waitlistId : String) : Option WaitlistEntry :=
  s.waitlist.find? (fun e => e.id == waitlistId)

/-- `WaitlistRepository.get_next_position`:
`func.max(position)` over the event's entries (`None` when empty, read
as 0) plus one. -/
def get_next_position (wl : List WaitlistEntry) : Nat :=
  ((wl.map (fun e => e.position)).foldl max 0) + 1

/-- `WaitlistRepository.get_first_in_line`:
`order_by(position).first()`, i.e. the entry of minimal position
(earliest row wins a tie, though ties never occur in reachable states). -/
def get_first_in_line (wl : List WaitlistEntry) : Option WaitlistEntry :=
  wl.foldl (fun acc e =>
    match acc with
    | none => some e
    | some m => if e.position < m.position then some e else acc) none

/-- `WaitlistRepository.remove`: delete the row (by primary key), then
decrement `position` on every remaining entry of the same event whose
position is strictly greater than the removed entry's. -/
def remove (wl : List WaitlistEntry) (entry : WaitlistEntry) : List WaitlistEntry :=
  (wl.filter (fun e => e.id != entry.id)).map (fun e =>
    if entry.position < e.position then { e with position := e.position - 1 } else e)

end WaitlistRepository

/-- The guest-email domain test of `create_registration` STEP 3:
`guest_email_lower.endswith('@umd.edu') or
guest_email_lower.endswith('@terpmail.umd.edu')`. -/
def approvedGuestEmail (email : String) : Bool :=
  pyEndsWith (pyLower email) "@umd.edu" || pyEndsWith (pyLower email) "@terpmail.umd.edu"

/-- First half of the guest-already-registered check of
`create_registration` STEP 3: the guest email belongs to a user who
already holds a CONFIRMED registration for this event as primary
attendee. -/
def guestPrimaryConflict (s : SysState) (g : Guest) : Bool :=
  match UserRepository.get_by_email s g.email with
  | some u =>
      match RegistrationRepository.get_by_user_and_event s u.id with
      | some r => r.status == RegistrationStatus.confirmed
      | none => false
  | none => false

/-- Second half of the guest-already-registered check: the guest email
appears (case-insensitively) in the guest list of some CONFIRMED
registration for this event. -/
def guestGuestConflict (s : SysState) (g : Guest) : Bool :=
  (RegistrationRepository.get_event_registrations s).any (fun r =>
    (r.guests.map (fun h => pyLower h.email)).contains (pyLower g.email))

/-- The shortfall message of `create_registration` STEP 4 (the f-string
of the non-zero remaining-capacity conflict). -/
def insufficientCapacityDetail (remaining required : Int) : String :=
  "Insufficient capacity. Only " ++ toString remaining ++
    " spot(s) remaining, but you need " ++ toString required ++
    " (including guests). Please reduce guests or join waitlist."

/-- STEPS 1-3 of `create_registration` after the event row has been
resolved: the published / past-event / duplicate-registration /
guest-count / guest-domain / duplicate-guest / guest-already-registered
preconditions, in source order, first failure wins.  Returns the
`HTTPException` data of the first failing check, or `none` when all
pass. -/
def preChecks (event : EventData) (s : SysState) (userId : String)
    (guests : List Guest) : Option ApiError :=
  if event.status ≠ EventStatus.published then
    some { statusCode := 400,
           detail := "Event is not published. Current status: " ++ event.status.value,
           headers := [] }
  else if event.datePast then
    some { statusCode := 400, detail := "Cannot register for past events", headers := [] }
  else if (RegistrationRepository.get_by_user_and_event s userId).isSome then
    some { statusCode := 409, detail := "You are already registered for this event",
           headers := [] }
  else if 2 < guests.length then
    some { statusCode := 422, detail := "Maximum 2 guests allowed per registration",
           headers := [] }
  else
    match guests.find? (fun g => !(approvedGuestEmail g.email)) with
    | some g =>
        some { statusCode := 422,
               detail := "Guest email " ++ g.email ++
                 " must be a valid UMD email (@umd.edu or @terpmail.umd.edu)",
               headers := [] }
    | none =>
      if (guests.map (fun g => pyLower g.email)).eraseDups.length ≠ guests.length then
        some { statusCode := 422, detail := "Duplicate guest emails are not allowed",
               headers := [] }
      else
        match guests.find? (fun g => guestPrimaryConflict s g || guestGuestConflict s g) with
        | some g =>
            if guestPrimaryConflict s g then
              some { statusCode := 409,
                     detail := "Guest " ++ g.email ++
                       " is already registered for this event as a primary attendee",
                     headers := [] }
            else
              some { statusCode := 409,
                     detail := "Guest " ++ g.email ++
                       " is already registered for this event as a guest of another attendee",
                     headers := [] }
        | none => none

/-- STEP 4 of `create_registration`: the capacity check.
`remaining = capacity - registered_count`, `required = 1 + len(guests)`;
when `remaining < required`, an exactly-full event (`remaining == 0`)
yields the join-waitlist conflict with the `X-Suggestion` header, any
other shortfall yields the generic insufficient-capacity conflict. -/
def capacityCheck (event : EventData) (guests : List Guest) : Option ApiError :=
  if event.capacity - event.registeredCount < 1 + (guests.length : Int) then
    if event.capacity - event.registeredCount = 0 then
      some { statusCode := 409, detail := "Event is full. Please join the waitlist instead.",
             headers := [("X-Suggestion", "join-waitlist")] }
    else
      some { statusCode := 409,
             detail := insufficientCapacityDetail
               (event.capacity - event.registeredCount) (1 + (guests.length : Int)),
             headers := [] }
  else none

/-- `RegistrationService.create_registration`.  The source raises on the
first failing precondition before any database write (STEPS 1-4), then
creates the CONFIRMED registration row and increments the event's
`registered_count` by `1 + len(guests)` in the same transaction
(STEPS 5-7; email and audit logging are stateless collaborators).
`newRegId`, `ticketCode` and `qrCode` stand for the uuid4 row id and the
generated (and, on collision, disambiguated) ticket/QR payloads. -/
def create_registration (s : SysState) (userId : String) (guests : List Guest)
    (sessions : List String) (newRegId ticketCode qrCode : String) :
    Except ApiError (SysState × Registration) :=
  match s.event with
  | none => .error { statusCode := 404, detail := "Event not found", headers := [] }
  | some event =>
    match preChecks event s userId guests with
    | some e => .error e
    | none =>
      match capacityCheck event guests with
      | some e => .error e
      | none =>
        let reg : Registration :=
          { id := newRegId, userId := userId, status := RegistrationStatus.confirmed,
            ticketCode := ticketCode, qrCode := qrCode, guests := guests,
            sessions := sessions, cancelledAt := none }
        .ok ({ s with
                registrations := s.registrations ++ [reg],
                event := some { event with
                  registeredCount := event.registeredCount + (1 + (guests.length : Int)) } },
              reg)

/-- `RegistrationService.promote_from_waitlist`.  Returns the post-call
state and the boolean result.  STEP 1 peeks the head of the waitlist;
STEP 2 re-resolves event and user and returns `False` when either is
missing (the entry is left in place); STEP 2.5 discards the entry and
fixes `waitlist_count` when the user already holds a CONFIRMED
registration; otherwise STEPS 3-8 create a zero-guest CONFIRMED
registration, increment `registered_count` by one, remove the entry
(renumbering the queue) and decrement `waitlist_count`, clamped at 0. -/
def promote_from_waitlist (s : SysState) (newRegId ticketCode qrCode : String) :
    SysState × Bool :=
  match WaitlistRepository.get_first_in_line s.waitlist with
  | none => (s, false)
  | some entry =>
    match s.event, UserRepository.get_by_id s entry.userId with
    | some event, some user =>
      if (match RegistrationRepository.get_by_user_and_event s user.id with
          | some existing => existing.status == RegistrationStatus.confirmed
          | none => false) then
        ({ s with
            waitlist := WaitlistRepository.remove s.waitlist entry,
            event := some { event with
              waitlistCount :=
                if event.waitlistCount - 1 < 0 then 0 else event.waitlistCount - 1 } },
          false)
      else
        let reg : Registration :=
          { id := newRegId, userId := user.id, status := RegistrationStatus.confirmed,
            ticketCode := ticketCode, qrCode := qrCode, guests := [], sessions := [],
            cancelledAt := none }
        ({ s with
            registrations := s.registrations ++ [reg],
            waitlist := WaitlistRepository.remove s.waitlist entry,
            event := some { event with
              registeredCount := event.registeredCount + 1,
              waitlistCount :=
                if event.waitlistCount - 1 < 0 then 0 else event.waitlistCount - 1 } },
          true)
    | _, _ => (s, false)

/-- STEPS 1-6 of `RegistrationService.cancel_registration`: resolve and
validate the registration (exists / owned / not already cancelled), mark
it cancelled with `cancelled_at := now`, and, when the event row still
exists, decrement its `registered_count` by `1 + len(guests)`, clamped
at 0.  (Email and audit logging are stateless collaborators.) -/
def cancelCore (s : SysState) (registrationId userId : String) (now : Nat) :
    Except ApiError (SysState × Registration) :=
  match RegistrationRepository.get_by_id s registrationId with
  | none => .error { statusCode := 404, detail := "Registration not found", headers := [] }
  | some registration =>
    if registration.userId ≠ userId then
      .error { statusCode := 403, detail := "You can only cancel your own registrations",
               headers := [] }
    else if registration.status = RegistrationStatus.cancelled then
      .error { statusCode := 400, detail := "Registration is already cancelled",
               headers := [] }
    else
      let cancelled : Registration :=
        { registration with status := RegistrationStatus.cancelled, cancelledAt := some now }
      let s1 : SysState :=
        { s with registrations :=
            s.registrations.map (fun r => if r.id == registration.id then cancelled else r) }
      match s.event with
      | some event =>
          .ok ({ s1 with event := some { event with
                  registeredCount :=
                    if event.registeredCount - (1 + (registration.guests.length : Int)) < 0
                    then 0
                    else event.registeredCount - (1 + (registration.guests.length : Int)) } },
                cancelled)
      | none => .ok (s1, cancelled)

/-- `RegistrationService.cancel_registration`: the validated
cancellation of `cancelCore` followed by STEP 9, the best-effort
auto-promotion.  The source calls `self.promote_from_waitlist(event.id)`
inside a `try`/`except` block; when the event row is missing, `event` is
`None` and the attribute access raises before the promotion starts, the
handler swallows the exception, and the cancellation still commits -- so
a missing event skips the promotion entirely. -/
def cancel_registration (s : SysState) (registrationId userId : String) (now : Nat)
    (promoRegId promoTicket promoQr : String) :
    Except ApiError (SysState × Registration) :=
  match cancelCore s registrationId userId now with
  | .error e => .error e
  | .ok (s2, cancelled) =>
      match s2.event with
      | some _ => .ok ((promote_from_waitlist s2 promoRegId promoTicket promoQr).1, cancelled)
      | none => .ok (s2, cancelled)

/-- The `pref_map.get(..., EMAIL)` lookup of `join_waitlist` STEP 5. -/
def prefMap (p : String) : NotificationPreference :=
  if pyLower p = "email" then NotificationPreference.email
  else if pyLower p = "sms" then NotificationPreference.sms
  else if pyLower p = "both" then NotificationPreference.both
  else NotificationPreference.email

/-- `RegistrationService.join_waitlist`.  STEPS 1-4 validate (event
exists and is published, user neither registered nor already queued,
event actually full), then STEPS 5-7 insert the entry at position
`max+1` and increment the event's `waitlist_count`. -/
def join_waitlist (s : SysState) (userId : String)
    (notificationPreference : String) (newEntryId : String) :
    Except ApiError (SysState × WaitlistEntry) :=
  match s.event with
  | none => .error { statusCode := 404, detail := "Event not found", headers := [] }
  | some event =>
    if event.status ≠ EventStatus.published then
      .error { statusCode := 400, detail := "Event is not published", headers := [] }
    else if (RegistrationRepository.get_by_user_and_event s userId).isSome then
      .error { statusCode := 409, detail := "You are already registered for this event",
               headers := [] }
    else if (WaitlistRepository.get_by_user_and_event s userId).isSome then
      .error { statusCode := 409,
               detail := "You are already on the waitlist for this event", headers := [] }
    else if event.registeredCount < event.capacity then
      .error { statusCode := 400,
               detail := "Event is not full. " ++
                 toString (event.capacity - event.registeredCount) ++
                 " spot(s) available. Please register instead.",
               headers := [] }
    else
      let entry : WaitlistEntry :=
        { id := newEntryId, userId := userId,
          position := WaitlistRepository.get_next_position s.waitlist,
          notificationPreference := prefMap notificationPreference }
      .ok ({ s with
              waitlist := s.waitlist ++ [entry],
              event := some { event with waitlistCount := event.waitlistCount + 1 } },
            entry)

/-- `RegistrationService.leave_waitlist`.  STEPS 1-2 validate (entry
exists and is owned), STEP 4 removes it (renumbering the queue), STEP 5
decrements the event's `waitlist_count`, clamped at 0, when the event
row still exists. -/
def leave_waitlist (s : SysState) (waitlistId userId : String) :
    Except ApiError (SysState × WaitlistEntry) :=
  match WaitlistRepository.get_by_id s waitlistId with
  | none => .error { statusCode := 404, detail := "Waitlist entry not found", headers := [] }
  | some entry =>
    if entry.userId ≠ userId then
      .error { statusCode := 403, detail := "You can only remove your own waitlist entries",
               headers := [] }
    else
      let s1 : SysState := { s with waitlist := WaitlistRepository.remove s.waitlist entry }
      match s.event with
      | some event =>
          .ok ({ s1 with event := some { event with
                  waitlistCount :=
                    if event.waitlistCount - 1 < 0 then 0 else event.waitlistCount - 1 } },
                entry)
      | none => .ok (s1, entry)

/-- The state a request handler leaves behind: the new state on success,
the untouched state when the service raised (every raise in the source
happens before any database write of the operation). -/
def exceptState {α : Type} (s : SysState) (r : Except ApiError (SysState × α)) : SysState :=
  match r with
  | .ok (s', _) => s'
  | .error _ => s

/-! ## Operation alphabets for the invariant claims -/

/-- One completed request of the capacity ledger's interface: a
create-registration, cancel-registration, join-waitlist or
leave-waitlist call with all of its inputs (including the
nondeterministic fresh identifiers and timestamps). -/
inductive LedgerOp where
  | create (userId : String) (guests : List Guest) (sessions : List String)
      (newRegId ticketCode qrCode : String)
  | cancel (registrationId userId : String) (now : Nat)
      (promoRegId promoTicket promoQr : String)
  | join (userId notificationPreference newEntryId : String)
  | leave (waitlistId userId : String)

/-- Run one ledger operation against the store: the committed state on
success, the untouched state when the service raised. -/
def applyLedgerOp (s : SysState) : LedgerOp → SysState
  | .create userId guests sessions a b c =>
      exceptState s (create_registration s userId guests sessions a b c)
  | .cancel registrationId userId now a b c =>
      exceptState s (cancel_registration s registrationId userId now a b c)
  | .join userId pref newEntryId => exceptState s (join_waitlist s userId pref newEntryId)
  | .leave waitlistId userId => exceptState s (leave_waitlist s waitlistId userId)

/-- The ledger bounds of claim C1:
`0 ≤ registeredCount ≤ capacity` and `0 ≤ waitlistCount` (vacuous once
the event row is gone). -/
def ledgerBounds (s : SysState) : Bool :=
  match s.event with
  | some e =>
      decide (0 ≤ e.registeredCount) && decide (e.registeredCount ≤ e.capacity) &&
        decide (0 ≤ e.waitlistCount)
  | none => true

/-- The schema-level capacity constraint (`capacity: 1-5000` in
app/schemas/event.py; the upper bound is irrelevant here). -/
def capacityAtLeastOne (s : SysState) : Bool :=
  match s.event with
  | some e => decide (1 ≤ e.capacity)
  | none => true

/-- The combined inductive invariant used to prove C1. -/
def LedgerInv (s : SysState) : Prop :=
  ∀ e, s.event = some e →
    1 ≤ e.capacity ∧ 0 ≤ e.registeredCount ∧ e.registeredCount ≤ e.capacity ∧
      0 ≤ e.waitlistCount

/-- One waitlist-affecting operation of claim C6: a join, a leave, or a
promotion (whose two non-trivial outcomes each remove the head entry). -/
inductive WaitlistOp where
  | join (userId notificationPreference newEntryId : String)
  | leave (waitlistId userId : String)
  | promote (newRegId ticketCode qrCode : String)

/-- Run one waitlist operation against the store. -/
def applyWaitlistOp (s : SysState) : WaitlistOp → SysState
  | .join userId pref newEntryId => exceptState s (join_waitlist s userId pref newEntryId)
  | .leave waitlistId userId => exceptState s (leave_waitlist s waitlistId userId)
  | .promote a b c => (promote_from_waitlist s a b c).1

/-- Side condition of a waitlist operation: a join must be given a row
id not already present (uuid4 freshness, enforced by the primary-key
constraint: a colliding insert raises `IntegrityError` and is rolled
back). -/
def waitlistOpOk (s : SysState) : WaitlistOp → Bool
  | .join _ _ newEntryId => s.waitlist.all (fun e => e.id != newEntryId)
  | _ => true

/-- States reachable from an empty waitlist by completed join / leave /
promotion operations (claim C6). -/
inductive WaitlistReachable : SysState → Prop where
  | empty (s : SysState) (h : s.waitlist = []) : WaitlistReachable s
  | step (s : SysState) (op : WaitlistOp) (hs : WaitlistReachable s)
      (hok : waitlistOpOk s op = true) : WaitlistReachable (applyWaitlistOp s op)

/-- Well-formedness of an event's waitlist: the row ids are distinct
(primary keys) and the positions are exactly `1..N` in some order — the
inductive invariant behind claim C6. -/
def WaitlistWF (s : SysState) : Prop :=
  (s.waitlist.map (fun x => x.id)).Nodup ∧
  (s.waitlist.map (fun x => x.position)).Perm (List.range' 1 s.waitlist.length)

/-! ## Concrete states for counterexamples and witnesses -/

/-- A full capacity-1 event with one confirmed registration and one
waitlisted user (the waiting user holds no registration). -/
def c1State : SysState :=
  { event := some { id := "e1", capacity := 1, registeredCount := 1, waitlistCount := 1,
                    status := EventStatus.published, datePast := false },
    registrations := [{ id := "r1", userId := "alice",
                        status := RegistrationStatus.confirmed, ticketCode := "T1",
                        qrCode := "Q1", guests := [], sessions := [], cancelledAt := none }],
    waitlist := [{ id := "w1", userId := "bob", position := 1,
                   notificationPreference := NotificationPreference.email }],
    users := [{ id := "alice", email := "alice@umd.edu" },
              { id := "bob", email := "bob@umd.edu" }] }

/-- A state whose event row has been deleted while one waitlist entry
remains. -/
def c2State : SysState :=
  { event := none, registrations := [],
    waitlist := [{ id := "w1", userId := "ghost", position := 1,
                   notificationPreference := NotificationPreference.email }],
    users := [] }

/-- The Scenario B event: capacity 5, exactly full, no waitlist. -/
def c4State : SysState :=
  { event := some { id := "e4", capacity := 5, registeredCount := 5, waitlistCount := 0,
                    status := EventStatus.published, datePast := false },
    registrations := [], waitlist := [], users := [] }

/-- Two valid, distinct UMD guest emails for Scenario B. -/
def c4Guests : List Guest :=
  [{ name := "G1", email := "g1@umd.edu" }, { name := "G2", email := "g2@umd.edu" }]

/-- The event row of the C5 witness state. -/
def c5Event : EventData :=
  { id := "e5", capacity := 10, registeredCount := 3, waitlistCount := 0,
    status := EventStatus.published, datePast := false }

/-- The confirmed two-guest registration of the C5 witness state. -/
def c5Reg : Registration :=
  { id := "r5", userId := "alice", status := RegistrationStatus.confirmed,
    ticketCode := "T5", qrCode := "Q5",
    guests := [{ name := "G1", email := "g1@umd.edu" },
               { name := "G2", email := "g2@umd.edu" }],
    sessions := [], cancelledAt := none }

/-- A published event with one confirmed two-guest registration. -/
def c5State : SysState :=
  { event := some c5Event, registrations := [c5Reg], waitlist := [],
    users := [{ id := "alice", email := "alice@umd.edu" }] }

/-- A state with an already-cancelled registration. -/
def c5CancelledState : SysState :=
  { event := some { id := "e5", capacity := 10, registeredCount := 3, waitlistCount := 0,
                    status := EventStatus.published, datePast := false },
    registrations := [{ id := "r5", userId := "alice",
                        status := RegistrationStatus.cancelled, ticketCode := "T5",
                        qrCode := "Q5", guests := [], sessions := [],
                        cancelledAt := some 7 }],
    waitlist := [], users := [{ id := "alice", email := "alice@umd.edu" }] }

/-- An empty published full event used as the base state of the C6
witness. -/
def c6Base : SysState :=
  { event := some { id := "e6", capacity := 2, registeredCount := 2, waitlistCount := 0,
                    status := EventStatus.published, datePast := false },
    registrations := [], waitlist := [],
    users := [{ id := "bob", email := "bob@umd.edu" }] }

/-- The event row of the C7 witness state. -/
def c7Event : EventData :=
  { id := "e7", capacity := 1, registeredCount := 1, waitlistCount := 1,
    status := EventStatus.published, datePast := false }

/-- The waitlist entry of the C7 witness state. -/
def c7Entry : WaitlistEntry :=
  { id := "w7", userId := "bob", position := 1,
    notificationPreference := NotificationPreference.email }

/-- The confirmed registration already held by the queued user of the
C7 witness state. -/
def c7Reg : Registration :=
  { id := "r7", userId := "bob", status := RegistrationStatus.confirmed,
    ticketCode := "T7", qrCode := "Q7", guests := [], sessions := [], cancelledAt := none }

/-- A full event whose waitlist head already holds a confirmed
registration. -/
def c7State : SysState :=
  { event := some c7Event, registrations := [c7Reg], waitlist := [c7Entry],
    users := [{ id := "bob", email := "bob@umd.edu" }] }

/-- A capacity-2 event, one confirmed registration, one waitlisted user
without a registration: cancelling promotes the head. -/
def c8State : SysState :=
  { event := some { id := "e8", capacity := 2, registeredCount := 2, waitlistCount := 1,
                    status := EventStatus.published, datePast := false },
    registrations := [{ id := "r8", userId := "alice",
                        status := RegistrationStatus.confirmed, ticketCode := "T8",
                        qrCode := "Q8", guests := [{ name := "G", email := "g@umd.edu" }],
                        sessions := [], cancelledAt := none }],
    waitlist := [{ id := "w8", userId := "bob", position := 1,
                   notificationPreference := NotificationPreference.email }],
    users := [{ id := "alice", email := "alice@umd.edu" },
              { id := "bob", email := "bob@umd.edu" }] }

/-- The event row used in the C3 witness. -/
def c3Event : EventData :=
  { id := "e3", capacity := 6, registeredCount := 4, waitlistCount := 0,
    status := EventStatus.published, datePast := false }

/-- A published event with 2 remaining seats, used for the shortfall
branch of C3 (a 2-guest request needs 3). -/
def c3State : SysState :=
  { event := some c3Event, registrations := [], waitlist := [], users := [] }

/-- A published event with free capacity used for Scenario D. -/
def c9State : SysState :=
  { event := some { id := "e9", capacity := 10, registeredCount := 0, waitlistCount := 0,
                    status := EventStatus.published, datePast := false },
    registrations := [], waitlist := [], users := [] }

/-- A guest with a non-UMD email address. -/
def c9BadGuest : Guest := { name := "Out", email := "out@gmail.com" }

/-- The confirmed registration of the C10 witness state. -/
def c10Reg : Registration :=
  { id := "r10", userId := "alice", status := RegistrationStatus.confirmed,
    ticketCode := "T10", qrCode := "Q10",
    guests := [{ name := "G", email := "g@umd.edu" }], sessions := [],
    cancelledAt := none }

/-- A confirmed registration whose event row has been deleted, with a
populated waitlist (to observe that no promotion happens). -/
def c10State : SysState :=
  { event := none, registrations := [c10Reg],
    waitlist := [{ id := "w10", userId := "bob", position := 1,
                   notificationPreference := NotificationPreference.email }],
    users := [{ id := "alice", email := "alice@umd.edu" },
              { id := "bob", email := "bob@umd.edu" }] }

/-! ## Helper lemmas -/

/-- A hit of `get_by_user_and_event` is a CONFIRMED registration of the
queried user (the repository query filters on both). -/
theorem get_by_user_and_event_spec {s : SysState} {userId : String} {r : Registration}
    (h : RegistrationRepository.get_by_user_and_event s userId = some r) :
    r.userId = userId ∧ r.status = RegistrationStatus.confirmed := by
  have hp := List.find?_some h
  simp only [Bool.and_eq_true, beq_iff_eq] at hp
  exact hp

/-- A hit of `UserRepository.get_by_id` carries the queried id. -/
theorem user_get_by_id_spec {s : SysState} {userId : String} {u : User}
    (h : UserRepository.get_by_id s userId = some u) : u.id = userId := by
  have hp := List.find?_some h
  simpa using hp

/-- The head entry returned by `get_first_in_line` is a member of the
waitlist. -/
theorem get_first_in_line_mem {wl : List WaitlistEntry} {e : WaitlistEntry}
    (h : WaitlistRepository.get_first_in_line wl = some e) : e ∈ wl := by
  suffices haux : ∀ (l : List WaitlistEntry) (acc : Option WaitlistEntry),
      l.foldl (fun acc x =>
        match acc with
        | none => some x
        | some m => if x.position < m.position then some x else acc) acc = some e →
      e ∈ l ∨ acc = some e by
    rcases haux wl none h with hm | hm
    · exact hm
    · cases hm
  intro l
  induction l with
  | nil => intro acc h; exact Or.inr h
  | cons x t ih =>
    intro acc h
    rw [List.foldl_cons] at h
    rcases ih _ h with hm | hm
    · exact Or.inl (List.mem_cons_of_mem x hm)
    · rcases acc with _ | m
      · dsimp only at hm
        cases hm
        exact Or.inl (List.mem_cons_self _ _)
      · dsimp only at hm
        by_cases hlt : x.position < m.position
        · rw [if_pos hlt] at hm
          cases hm
          exact Or.inl (List.mem_cons_self _ _)
        · rw [if_neg hlt] at hm
          exact Or.inr hm

/-! ## Claim C2: dead waitlist entry during promotion -/

/-- C2, counterexample: with the head waitlist entry present but the
event row missing, `promote_from_waitlist` returns `False` yet the
entry is NOT removed from the waitlist — contradicting the claim that a
dead entry is removed. -/
theorem C2_counterexample :
    (promote_from_waitlist c2State "r1" "T1" "Q1").2 = false ∧
    (promote_from_waitlist c2State "r1" "T1" "Q1").1.waitlist =
      [{ id := "w1", userId := "ghost", position := 1,
         notificationPreference := NotificationPreference.email }] :=
  ⟨rfl, rfl⟩

/-- C2 (amended): when the head waitlist entry exists but re-resolving
the event or the waiting user finds either missing, the function
returns `False` without creating a registration and leaves the entire
state — including the dead waitlist entry — unchanged. -/
theorem C2_dead_entry_unchanged (s : SysState) (entry : WaitlistEntry) (a b c : String)
    (hhead : WaitlistRepository.get_first_in_line s.waitlist = some entry)
    (hdead : s.event = none ∨ UserRepository.get_by_id s entry.userId = none) :
    promote_from_waitlist s a b c = (s, false) := by
  unfold promote_from_waitlist
  rw [hhead]
  dsimp only
  rcases hdead with h | h
  · rw [h]
  · rw [h]
    rcases hse : s.event with _ | ev <;> rfl

/-- C2 witness: the amended statement at the concrete dead-entry
state. -/
theorem C2_dead_entry_unchanged_witness :
    promote_from_waitlist c2State "r1" "T1" "Q1" = (c2State, false) :=
  C2_dead_entry_unchanged c2State
    { id := "w1", userId := "ghost", position := 1,
      notificationPreference := NotificationPreference.email }
    "r1" "T1" "Q1" rfl (Or.inl rfl)

/-! ## Claim C4: Scenario B (full event, two guests) -/

/-- C4, counterexample: at capacity 5 with registeredCount 5, a 2-guest
attempt that passes all earlier preconditions yields the
"Event is full" Conflict with the join-waitlist hint, which differs
from the shortfall message ("need 3, have 0") the claim predicts. -/
theorem C4_counterexample :
    create_registration c4State "dave" c4Guests [] "r9" "T9" "Q9" =
      .error { statusCode := 409,
               detail := "Event is full. Please join the waitlist instead.",
               headers := [("X-Suggestion", "join-waitlist")] } ∧
    "Event is full. Please join the waitlist instead." ≠
      insufficientCapacityDetail 0 3 :=
  ⟨rfl, by decide⟩

/-- C4 (amended): for an exactly-full event (registeredCount =
capacity), a registration attempt that passes all earlier
preconditions — in particular one with 2 guests — fails with the
Conflict carrying the machine-readable join-waitlist hint ("Event is
full"), because the `remainingCapacity == 0` branch takes precedence
over the shortfall message. -/
theorem C4_full_event_guest_conflict (s : SysState) (event : EventData) (userId : String)
    (guests : List Guest) (sessions : List String) (a b c : String)
    (hev : s.event = some event)
    (hpre : preChecks event s userId guests = none)
    (hfull : event.registeredCount = event.capacity) :
    create_registration s userId guests sessions a b c =
      .error { statusCode := 409,
               detail := "Event is full. Please join the waitlist instead.",
               headers := [("X-Suggestion", "join-waitlist")] } := by
  have h0 : event.capacity - event.registeredCount = 0 := by omega
  have hlt : event.capacity - event.registeredCount < 1 + (guests.length : Int) := by
    rw [h0]; omega
  unfold create_registration
  rw [hev]
  dsimp only
  rw [hpre]
  dsimp only
  unfold capacityCheck
  rw [if_pos hlt, if_pos h0]

/-- C4 witness: the amended statement at the Scenario B input. -/
theorem C4_full_event_guest_conflict_witness :
    create_registration c4State "dave" c4Guests [] "r9" "T9" "Q9" =
      .error { statusCode := 409,
               detail := "Event is full. Please join the waitlist instead.",
               headers := [("X-Suggestion", "join-waitlist")] } :=
  C4_full_event_guest_conflict c4State
    { id := "e4", capacity := 5, registeredCount := 5, waitlistCount := 0,
      status := EventStatus.published, datePast := false }
    "dave" c4Guests [] "r9" "T9" "Q9" rfl rfl rfl

/-! ## Claim C1: ledger bounds -/

/-- C1, counterexample: from a state satisfying the bounds (a full
capacity-1 event with a waiting user), one completed
promote-from-waitlist operation drives `registeredCount` to 2 > 1 =
`capacity`: the promotion path performs no capacity check. -/
theorem C1_counterexample :
    ledgerBounds c1State = true ∧
    (promote_from_waitlist c1State "r2" "T2" "Q2").2 = true ∧
    ledgerBounds (promote_from_waitlist c1State "r2" "T2" "Q2").1 = false :=
  ⟨rfl, rfl, rfl⟩

/-- The `if x < 0 then 0 else x` clamp of the source equals `max 0 x`. -/
theorem int_clamp_eq_max (x : Int) : (if x < 0 then 0 else x) = max 0 x := by
  split <;> omega

/-! ## Claim C3: capacity conflict discrimination -/

/-- C3: when every earlier precondition passes and
`remainingCapacity < required`, create-registration fails with a 409
Conflict; the error carries the machine-readable join-waitlist hint
exactly when `remainingCapacity == 0` and is otherwise the generic
shortfall conflict; the state is left unchanged. -/
theorem C3_capacity_conflict (s : SysState) (event : EventData) (userId : String)
    (guests : List Guest) (sessions : List String) (a b c : String)
    (hev : s.event = some event)
    (hpre : preChecks event s userId guests = none)
    (hcap : event.capacity - event.registeredCount < 1 + (guests.length : Int)) :
    ∃ err : ApiError,
      create_registration s userId guests sessions a b c = .error err ∧
      err.statusCode = 409 ∧
      (event.capacity - event.registeredCount = 0 →
        err.detail = "Event is full. Please join the waitlist instead." ∧
        err.headers = [("X-Suggestion", "join-waitlist")]) ∧
      (event.capacity - event.registeredCount ≠ 0 →
        err.detail = insufficientCapacityDetail (event.capacity - event.registeredCount)
          (1 + (guests.length : Int)) ∧
        err.headers = []) ∧
      exceptState s (create_registration s userId guests sessions a b c) = s := by
  have hcr : ∀ e0 : ApiError, capacityCheck event guests = some e0 →
      create_registration s userId guests sessions a b c = .error e0 := by
    intro e0 h0
    unfold create_registration
    rw [hev]
    dsimp only
    rw [hpre]
    dsimp only
    rw [h0]
  by_cases h0 : event.capacity - event.registeredCount = 0
  · have hcc : capacityCheck event guests =
        some { statusCode := 409,
               detail := "Event is full. Please join the waitlist instead.",
               headers := [("X-Suggestion", "join-waitlist")] } := by
      unfold capacityCheck
      rw [if_pos hcap, if_pos h0]
    have h := hcr _ hcc
    exact ⟨_, h, rfl, fun _ => ⟨rfl, rfl⟩, fun hne => absurd h0 hne, by rw [h]; rfl⟩
  · have hcc : capacityCheck event guests =
        some { statusCode := 409,
               detail := insufficientCapacityDetail
                 (event.capacity - event.registeredCount) (1 + (guests.length : Int)),
               headers := [] } := by
      unfold capacityCheck
      rw [if_pos hcap, if_neg h0]
    have h := hcr _ hcc
    exact ⟨_, h, rfl, fun h0' => absurd h0' h0, fun _ => ⟨rfl, rfl⟩, by rw [h]; rfl⟩

/-- C3 witness: the shortfall branch at a concrete event with 2 seats
left and a 2-guest request. -/
theorem C3_capacity_conflict_witness :
    ∃ err : ApiError,
      create_registration c3State "carol" c4Guests [] "r3" "T3" "Q3" = .error err ∧
      err.statusCode = 409 ∧
      (c3Event.capacity - c3Event.registeredCount = 0 →
        err.detail = "Event is full. Please join the waitlist instead." ∧
        err.headers = [("X-Suggestion", "join-waitlist")]) ∧
      (c3Event.capacity - c3Event.registeredCount ≠ 0 →
        err.detail = insufficientCapacityDetail
          (c3Event.capacity - c3Event.registeredCount) (1 + (c4Guests.length : Int)) ∧
        err.headers = []) ∧
      exceptState c3State (create_registration c3State "carol" c4Guests [] "r3" "T3" "Q3") =
        c3State :=
  C3_capacity_conflict c3State c3Event "carol" c4Guests [] "r3" "T3" "Q3" rfl rfl (by decide)

/-! ## Claim C5: cancellation idempotence and exact decrement -/

/-- C5: cancelling an already-cancelled registration fails with the 400
InvalidState error and leaves the state unchanged; successfully
cancelling a confirmed registration marks it cancelled, stamps
`cancelledAt`, and decrements the event's `registeredCount` by exactly
`1 + guests.length`, clamped at 0 (the waitlist promotion that follows
operates on that already-decremented ledger). -/
theorem C5_cancel_idempotent_exact_decrement (s : SysState)
    (registrationId userId : String) (now : Nat) (pa pb pc : String) (reg : Registration)
    (hfind : RegistrationRepository.get_by_id s registrationId = some reg)
    (hown : reg.userId = userId) :
    (reg.status = RegistrationStatus.cancelled →
      cancel_registration s registrationId userId now pa pb pc =
        .error { statusCode := 400, detail := "Registration is already cancelled",
                 headers := [] } ∧
      exceptState s (cancel_registration s registrationId userId now pa pb pc) = s) ∧
    (reg.status = RegistrationStatus.confirmed →
      ∀ event, s.event = some event →
      ∃ s2 cancelled,
        cancelCore s registrationId userId now = .ok (s2, cancelled) ∧
        cancelled.status = RegistrationStatus.cancelled ∧
        cancelled.cancelledAt = some now ∧
        s2.event = some { event with
          registeredCount :=
            max 0 (event.registeredCount - (1 + (reg.guests.length : Int))) } ∧
        ∃ sf, cancel_registration s registrationId userId now pa pb pc = .ok (sf, cancelled)) := by
  have hneq : ¬ (reg.userId ≠ userId) := fun hne => hne hown
  constructor
  · intro hstat
    have hcc : cancelCore s registrationId userId now =
        .error { statusCode := 400, detail := "Registration is already cancelled",
                 headers := [] } := by
      unfold cancelCore
      rw [hfind]
      dsimp only
      rw [if_neg hneq, if_pos hstat]
    have h : cancel_registration s registrationId userId now pa pb pc =
        .error { statusCode := 400, detail := "Registration is already cancelled",
                 headers := [] } := by
      unfold cancel_registration
      rw [hcc]
    exact ⟨h, by rw [h]; rfl⟩
  · intro hstat event hev
    have hncan : ¬ (reg.status = RegistrationStatus.cancelled) := by
      rw [hstat]
      intro hcontra
      cases hcontra
    have hcc : cancelCore s registrationId userId now =
        .ok ({ s with
                registrations := s.registrations.map (fun r =>
                  if r.id == reg.id then
                    { reg with status := RegistrationStatus.cancelled,
                               cancelledAt := some now }
                  else r),
                event := some { event with
                  registeredCount :=
                    if event.registeredCount - (1 + (reg.guests.length : Int)) < 0 then 0
                    else event.registeredCount - (1 + (reg.guests.length : Int)) } },
              { reg with status := RegistrationStatus.cancelled,
                         cancelledAt := some now }) := by
      unfold cancelCore
      rw [hfind]
      dsimp only
      rw [if_neg hneq, if_neg hncan]
      rw [hev]
    refine ⟨_, _, hcc, rfl, rfl, ?_, ?_⟩
    · rw [int_clamp_eq_max]
    · exact ⟨_, by unfold cancel_registration; rw [hcc]⟩

/-- C5 witness: both branches at concrete states — the already-cancelled
rejection and the exact decrement of a confirmed 2-guest cancellation. -/
theorem C5_cancel_idempotent_exact_decrement_witness :
    (cancel_registration c5CancelledState "r5" "alice" 42 "x" "y" "z" =
      .error { statusCode := 400, detail := "Registration is already cancelled",
               headers := [] }) ∧
    ∃ s2 cancelled,
      cancelCore c5State "r5" "alice" 42 = .ok (s2, cancelled) ∧
      cancelled.status = RegistrationStatus.cancelled ∧
      cancelled.cancelledAt = some 42 ∧
      s2.event = some { c5Event with
        registeredCount :=
          max 0 (c5Event.registeredCount - (1 + (c5Reg.guests.length : Int))) } ∧
      ∃ sf, cancel_registration c5State "r5" "alice" 42 "x" "y" "z" = .ok (sf, cancelled) := by
  constructor
  · exact ((C5_cancel_idempotent_exact_decrement c5CancelledState "r5" "alice" 42 "x" "y" "z"
      { id := "r5", userId := "alice", status := RegistrationStatus.cancelled,
        ticketCode := "T5", qrCode := "Q5", guests := [], sessions := [],
        cancelledAt := some 7 } rfl rfl).1 rfl).1
  · exact (C5_cancel_idempotent_exact_decrement c5State "r5" "alice" 42 "x" "y" "z"
      c5Reg rfl rfl).2 rfl c5Event rfl

/-! ## Claim C7: promotion idempotency guard -/

/-- C7: when the waitlist head's user already holds a confirmed
registration for the event, the promotion discards the waitlist entry,
decrements `waitlistCount` (clamped at 0), leaves the registrations and
`registeredCount` unchanged, and returns `false`. -/
theorem C7_promotion_idempotency_guard (s : SysState) (entry : WaitlistEntry)
    (event : EventData) (user : User) (existing : Registration) (a b c : String)
    (hhead : WaitlistRepository.get_first_in_line s.waitlist = some entry)
    (hev : s.event = some event)
    (huser : UserRepository.get_by_id s entry.userId = some user)
    (hex : RegistrationRepository.get_by_user_and_event s user.id = some existing) :
    promote_from_waitlist s a b c =
      ({ s with
          waitlist := WaitlistRepository.remove s.waitlist entry,
          event := some { event with
            waitlistCount :=
              if event.waitlistCount - 1 < 0 then 0 else event.waitlistCount - 1 } },
        false) ∧
    (promote_from_waitlist s a b c).1.registrations = s.registrations ∧
    (promote_from_waitlist s a b c).1.event.map (fun e => e.registeredCount) =
      some event.registeredCount ∧
    (promote_from_waitlist s a b c).2 = false := by
  have hconf : existing.status = RegistrationStatus.confirmed :=
    (get_by_user_and_event_spec hex).2
  have hmain : promote_from_waitlist s a b c =
      ({ s with
          waitlist := WaitlistRepository.remove s.waitlist entry,
          event := some { event with
            waitlistCount :=
              if event.waitlistCount - 1 < 0 then 0 else event.waitlistCount - 1 } },
        false) := by
    unfold promote_from_waitlist
    rw [hhead]
    dsimp only
    rw [hev, huser]
    dsimp only
    rw [hex]
    dsimp only
    rw [if_pos (by rw [hconf]; rfl)]
  refine ⟨hmain, ?_, ?_, ?_⟩
  · rw [hmain]
  · rw [hmain]; rfl
  · rw [hmain]

/-- C7 witness: the guard at the concrete state whose queued user is
already registered. -/
theorem C7_promotion_idempotency_guard_witness :
    promote_from_waitlist c7State "rx" "Tx" "Qx" =
      ({ c7State with
          waitlist := WaitlistRepository.remove c7State.waitlist c7Entry,
          event := some { c7Event with
            waitlistCount :=
              if c7Event.waitlistCount - 1 < 0 then 0 else c7Event.waitlistCount - 1 } },
        false) ∧
    (promote_from_waitlist c7State "rx" "Tx" "Qx").1.registrations = c7State.registrations ∧
    (promote_from_waitlist c7State "rx" "Tx" "Qx").1.event.map (fun e => e.registeredCount) =
      some c7Event.registeredCount ∧
    (promote_from_waitlist c7State "rx" "Tx" "Qx").2 = false :=
  C7_promotion_idempotency_guard c7State c7Entry c7Event
    { id := "bob", email := "bob@umd.edu" } c7Reg "rx" "Tx" "Qx" rfl rfl rfl rfl

/-! ## Claim C10: cancellation with a deleted event row -/

/-- C10: an owned, not-yet-cancelled registration is cancelled (status
set, `cancelledAt` stamped) even when the event row no longer exists;
the ledger update and the promotion attempt are skipped (the waitlist is
untouched) and no error reaches the caller. -/
theorem C10_cancel_without_event (s : SysState) (registrationId userId : String)
    (now : Nat) (pa pb pc : String) (reg : Registration)
    (hfind : RegistrationRepository.get_by_id s registrationId = some reg)
    (hown : reg.userId = userId)
    (hnc : reg.status ≠ RegistrationStatus.cancelled)
    (hev : s.event = none) :
    cancel_registration s registrationId userId now pa pb pc =
      .ok ({ s with registrations := s.registrations.map (fun r =>
              if r.id == reg.id then
                { reg with status := RegistrationStatus.cancelled, cancelledAt := some now }
              else r) },
            { reg with status := RegistrationStatus.cancelled, cancelledAt := some now }) ∧
    (exceptState s (cancel_registration s registrationId userId now pa pb pc)).waitlist =
      s.waitlist ∧
    (exceptState s (cancel_registration s registrationId userId now pa pb pc)).event =
      none := by
  have hneq : ¬ (reg.userId ≠ userId) := fun hne => hne hown
  have hcc : cancelCore s registrationId userId now =
      .ok ({ s with registrations := s.registrations.map (fun r =>
              if r.id == reg.id then
                { reg with status := RegistrationStatus.cancelled, cancelledAt := some now }
              else r) },
            { reg with status := RegistrationStatus.cancelled, cancelledAt := some now }) := by
    unfold cancelCore
    rw [hfind]
    dsimp only
    rw [if_neg hneq, if_neg hnc]
    rw [hev]
  have hmain : cancel_registration s registrationId userId now pa pb pc =
      .ok ({ s with registrations := s.registrations.map (fun r =>
              if r.id == reg.id then
                { reg with status := RegistrationStatus.cancelled, cancelledAt := some now }
              else r) },
            { reg with status := RegistrationStatus.cancelled, cancelledAt := some now }) := by
    unfold cancel_registration
    rw [hcc]
    rw [hev]
  exact ⟨hmain, by rw [hmain]; rfl, by rw [hmain]; exact hev⟩

/-! ## Claim C9: strict validate-then-mutate -/

/-- C9: every precondition failure of create-registration or
join-waitlist is raised before any mutation — the failing request leaves
the store exactly as it was — and in particular a guest email outside
the approved domains (when the earlier checks pass) yields a 422
ValidationError with no registration and no ledger change. -/
theorem C9_validate_then_mutate :
    (∀ (s : SysState) (userId : String) (guests : List Guest) (sessions : List String)
        (a b c : String) (err : ApiError),
      create_registration s userId guests sessions a b c = .error err →
      exceptState s (create_registration s userId guests sessions a b c) = s) ∧
    (∀ (s : SysState) (userId pref newEntryId : String) (err : ApiError),
      join_waitlist s userId pref newEntryId = .error err →
      exceptState s (join_waitlist s userId pref newEntryId) = s) ∧
    (∀ (s : SysState) (event : EventData) (userId : String) (guests : List Guest)
        (sessions : List String) (a b c : String) (g : Guest),
      s.event = some event →
      event.status = EventStatus.published →
      event.datePast = false →
      RegistrationRepository.get_by_user_and_event s userId = none →
      guests.length ≤ 2 →
      g ∈ guests →
      approvedGuestEmail g.email = false →
      ∃ err, create_registration s userId guests sessions a b c = .error err ∧
        err.statusCode = 422 ∧
        exceptState s (create_registration s userId guests sessions a b c) = s) := by
  refine ⟨?_, ?_, ?_⟩
  · intro s userId guests sessions a b c err h
    rw [h]
    rfl
  · intro s userId pref newEntryId err h
    rw [h]
    rfl
  · intro s event userId guests sessions a b c g hev hpub hpast hdup hlen hg hbad
    have hfind : (guests.find? (fun g => !(approvedGuestEmail g.email))).isSome := by
      rw [List.find?_isSome]
      exact ⟨g, hg, by rw [hbad]; rfl⟩
    obtain ⟨g0, hg0⟩ := Option.isSome_iff_exists.mp hfind
    have hpre : preChecks event s userId guests =
        some { statusCode := 422,
               detail := "Guest email " ++ g0.email ++
                 " must be a valid UMD email (@umd.edu or @terpmail.umd.edu)",
               headers := [] } := by
      unfold preChecks
      rw [if_neg (fun hne => hne hpub), if_neg (by simp [hpast]), if_neg (by simp [hdup]),
        if_neg (by omega), hg0]
    have h : create_registration s userId guests sessions a b c =
        .error { statusCode := 422,
                 detail := "Guest email " ++ g0.email ++
                   " must be a valid UMD email (@umd.edu or @terpmail.umd.edu)",
                 headers := [] } := by
      unfold create_registration
      rw [hev]
      dsimp only
      rw [hpre]
    exact ⟨_, h, rfl, by rw [h]; rfl⟩

/-- C9 witness: the guest-domain ValidationError (Scenario D) at a
concrete state, via the third conjunct of the theorem. -/
theorem C9_validate_then_mutate_witness :
    ∃ err, create_registration c9State "dave" [c9BadGuest] [] "rd" "Td" "Qd" = .error err ∧
      err.statusCode = 422 ∧
      exceptState c9State (create_registration c9State "dave" [c9BadGuest] [] "rd" "Td" "Qd") =
        c9State :=
  C9_validate_then_mutate.2.2 c9State
    { id := "e9", capacity := 10, registeredCount := 0, waitlistCount := 0,
      status := EventStatus.published, datePast := false }
    "dave" [c9BadGuest] [] "rd" "Td" "Qd" c9BadGuest rfl rfl rfl rfl (by decide)
    (List.mem_singleton.mpr rfl) rfl

/-! ## Claim C8: at most one promotion per cancellation -/

/-- The shape of a successful `cancelCore`: the registration list keeps
its length (one row is rewritten in place) and the waitlist and user
table are untouched. -/
theorem cancelCore_ok_shape {s : SysState} {registrationId userId : String} {now : Nat}
    {s2 : SysState} {c : Registration}
    (h : cancelCore s registrationId userId now = .ok (s2, c)) :
    s2.registrations.length = s.registrations.length ∧ s2.waitlist = s.waitlist ∧
    s2.users = s.users := by
  unfold cancelCore at h
  rcases hf : RegistrationRepository.get_by_id s registrationId with _ | reg <;> rw [hf] at h
  · simp at h
  · dsimp only at h
    by_cases h1 : reg.userId ≠ userId
    · rw [if_pos h1] at h
      simp at h
    · rw [if_neg h1] at h
      by_cases h2 : reg.status = RegistrationStatus.cancelled
      · rw [if_pos h2] at h
        simp at h
      · rw [if_neg h2] at h
        rcases hev : s.event with _ | event <;> rw [hev] at h
        · simp only [Except.ok.injEq, Prod.mk.injEq] at h
          obtain ⟨hA, -⟩ := h
          subst hA
          exact ⟨by simp, rfl, rfl⟩
        · simp only [Except.ok.injEq, Prod.mk.injEq] at h
          obtain ⟨hA, -⟩ := h
          subst hA
          exact ⟨by simp, rfl, rfl⟩

/-- Any single `promote_from_waitlist` call grows the registration list
by at most one row, and either leaves the waitlist alone or removes
exactly the head entry. -/
theorem promote_effect_bounds (s : SysState) (a b c : String) :
    (promote_from_waitlist s a b c).1.registrations.length ≤ s.registrations.length + 1 ∧
    ((promote_from_waitlist s a b c).1.waitlist = s.waitlist ∨
      ∃ entry, WaitlistRepository.get_first_in_line s.waitlist = some entry ∧
        (promote_from_waitlist s a b c).1.waitlist =
          WaitlistRepository.remove s.waitlist entry) := by
  unfold promote_from_waitlist
  rcases hh : WaitlistRepository.get_first_in_line s.waitlist with _ | entry
  · dsimp only
    exact ⟨by omega, Or.inl rfl⟩
  · dsimp only
    rcases hev : s.event with _ | event
    · dsimp only
      exact ⟨by omega, Or.inl rfl⟩
    · rcases hu : UserRepository.get_by_id s entry.userId with _ | user
      · dsimp only
        exact ⟨by omega, Or.inl rfl⟩
      · dsimp only
        by_cases hreg : (match RegistrationRepository.get_by_user_and_event s user.id with
            | some existing => existing.status == RegistrationStatus.confirmed
            | none => false) = true
        · rw [if_pos hreg]
          exact ⟨by dsimp only; omega, Or.inr ⟨entry, rfl, rfl⟩⟩
        · rw [if_neg hreg]
          exact ⟨by simp, Or.inr ⟨entry, rfl, rfl⟩⟩

/-- C8: a successful promotion is of the head waitlist entry, creates a
registration with zero guests for that entry's user, and increments
`registeredCount` by exactly 1; and a successful cancellation — which
invokes the promotion exactly once — grows the registration list by at
most one row and removes at most the head entry from the waitlist, even
when several seats were freed. -/
theorem C8_single_promotion_per_cancellation (s : SysState) :
    (∀ (a b c : String) (s' : SysState),
      promote_from_waitlist s a b c = (s', true) →
      ∃ entry event,
        WaitlistRepository.get_first_in_line s.waitlist = some entry ∧
        s.event = some event ∧
        s'.event.map (fun e => e.registeredCount) = some (event.registeredCount + 1) ∧
        ∃ newReg : Registration,
          s'.registrations = s.registrations ++ [newReg] ∧
          newReg.guests = [] ∧ newReg.userId = entry.userId) ∧
    (∀ (registrationId userId : String) (now : Nat) (pa pb pc : String)
        (sf : SysState) (r : Registration),
      cancel_registration s registrationId userId now pa pb pc = .ok (sf, r) →
      sf.registrations.length ≤ s.registrations.length + 1 ∧
      (sf.waitlist = s.waitlist ∨
        ∃ entry, WaitlistRepository.get_first_in_line s.waitlist = some entry ∧
          sf.waitlist = WaitlistRepository.remove s.waitlist entry)) := by
  constructor
  · intro a b c s' h
    unfold promote_from_waitlist at h
    rcases hh : WaitlistRepository.get_first_in_line s.waitlist with _ | entry <;> rw [hh] at h
    · simp at h
    · dsimp only at h
      rcases hev : s.event with _ | event <;> rw [hev] at h
      · simp at h
      · rcases hu : UserRepository.get_by_id s entry.userId with _ | user <;> rw [hu] at h
        · simp at h
        · dsimp only at h
          by_cases hreg : (match RegistrationRepository.get_by_user_and_event s user.id with
              | some existing => existing.status == RegistrationStatus.confirmed
              | none => false) = true
          · rw [if_pos hreg] at h
            simp at h
          · rw [if_neg hreg] at h
            injection h with h1 h2
            subst h1
            exact ⟨entry, event, rfl, rfl, rfl,
              ⟨_, rfl, rfl, user_get_by_id_spec hu⟩⟩
  · intro registrationId userId now pa pb pc sf r h
    unfold cancel_registration at h
    rcases hcc : cancelCore s registrationId userId now with e | p <;> rw [hcc] at h
    · simp at h
    · obtain ⟨s2, c⟩ := p
      obtain ⟨hlen, hw, -⟩ := cancelCore_ok_shape hcc
      dsimp only at h
      rcases hse : s2.event with _ | ev <;> rw [hse] at h
      · simp only [Except.ok.injEq, Prod.mk.injEq] at h
        obtain ⟨h1, -⟩ := h
        subst h1
        exact ⟨by omega, Or.inl hw⟩
      · simp only [Except.ok.injEq, Prod.mk.injEq] at h
        obtain ⟨h1, -⟩ := h
        subst h1
        obtain ⟨hl2, hw2⟩ := promote_effect_bounds s2 pa pb pc
        refine ⟨by omega, ?_⟩
        rcases hw2 with h' | ⟨entry, hent, h'⟩
        · rw [hw] at h'
          exact Or.inl h'
        · rw [hw] at hent h'
          exact Or.inr ⟨entry, hent, h'⟩

/-- C8 witness: both conjuncts at the concrete capacity-2 state — the
direct promotion and the cancellation that frees two seats yet promotes
only the single head entry. -/
theorem C8_single_promotion_per_cancellation_witness :
    (∃ entry event,
      WaitlistRepository.get_first_in_line c8State.waitlist = some entry ∧
      c8State.event = some event ∧
      (promote_from_waitlist c8State "n1" "t1" "q1").1.event.map
        (fun e => e.registeredCount) = some (event.registeredCount + 1) ∧
      ∃ newReg : Registration,
        (promote_from_waitlist c8State "n1" "t1" "q1").1.registrations =
          c8State.registrations ++ [newReg] ∧
        newReg.guests = [] ∧ newReg.userId = entry.userId) ∧
    ((exceptState c8State
        (cancel_registration c8State "r8" "alice" 5 "n1" "t1" "q1")).registrations.length ≤
      c8State.registrations.length + 1 ∧
    ((exceptState c8State
        (cancel_registration c8State "r8" "alice" 5 "n1" "t1" "q1")).waitlist =
        c8State.waitlist ∨
      ∃ entry, WaitlistRepository.get_first_in_line c8State.waitlist = some entry ∧
        (exceptState c8State
          (cancel_registration c8State "r8" "alice" 5 "n1" "t1" "q1")).waitlist =
          WaitlistRepository.remove c8State.waitlist entry)) := by
  constructor
  · exact (C8_single_promotion_per_cancellation c8State).1 "n1" "t1" "q1"
      (promote_from_waitlist c8State "n1" "t1" "q1").1 rfl
  · exact (C8_single_promotion_per_cancellation c8State).2 "r8" "alice" 5 "n1" "t1" "q1"
      (exceptState c8State (cancel_registration c8State "r8" "alice" 5 "n1" "t1" "q1"))
      { id := "r8", userId := "alice", status := RegistrationStatus.cancelled,
        ticketCode := "T8", qrCode := "Q8",
        guests := [{ name := "G", email := "g@umd.edu" }], sessions := [],
        cancelledAt := some 5 } rfl

/-! ## Claim C6: waitlist positions stay contiguous -/

/-- `List.foldl max` is invariant under permutation. -/
theorem foldl_max_perm {l₁ l₂ : List Nat} (h : l₁.Perm l₂) :
    ∀ a : Nat, l₁.foldl max a = l₂.foldl max a := by
  induction h with
  | nil => intro a; rfl
  | cons x _ ih =>
    intro a
    simp only [List.foldl_cons]
    exact ih _
  | swap x y l =>
    intro a
    simp only [List.foldl_cons]
    rw [show max (max a y) x = max (max a x) y by omega]
  | trans _ _ ih₁ ih₂ =>
    intro a
    rw [ih₁ a, ih₂ a]

/-- Folding `max` over `1..n` yields `max a n`. -/
theorem foldl_max_range' (n : Nat) : ∀ a : Nat, (List.range' 1 n).foldl max a = max a n := by
  induction n with
  | zero => intro a; simp
  | succ k ih =>
    intro a
    rw [List.range'_concat, List.foldl_append, ih a]
    simp only [List.foldl_cons, List.foldl_nil]
    omega

/-- On a waitlist whose positions are exactly `1..N`, the next assigned
position is `N + 1`. -/
theorem get_next_position_of_perm {wl : List WaitlistEntry}
    (h : (wl.map (fun x => x.position)).Perm (List.range' 1 wl.length)) :
    WaitlistRepository.get_next_position wl = wl.length + 1 := by
  unfold WaitlistRepository.get_next_position
  rw [foldl_max_perm h 0, foldl_max_range' wl.length 0]
  omega

/-- Appending an entry at position `N + 1` keeps the positions exactly
`1..N+1`. -/
theorem join_positions {wl : List WaitlistEntry} (e : WaitlistEntry)
    (hpos : e.position = wl.length + 1)
    (h : (wl.map (fun x => x.position)).Perm (List.range' 1 wl.length)) :
    ((wl ++ [e]).map (fun x => x.position)).Perm (List.range' 1 (wl ++ [e]).length) := by
  rw [List.map_append, List.length_append]
  simp only [List.map_cons, List.map_nil, List.length_cons, List.length_nil]
  rw [hpos]
  have hsplit : List.range' 1 (wl.length + 1) =
      List.range' 1 wl.length ++ [wl.length + 1] := by
    rw [List.range'_concat]
    congr 1
    simp
    omega
  rw [hsplit]
  exact h.append_right [wl.length + 1]

/-- With distinct ids, filtering out an entry's id removes exactly that
entry, up to permutation. -/
theorem filter_ne_id_perm {wl : List WaitlistEntry} {e : WaitlistEntry}
    (hnd : (wl.map (fun x => x.id)).Nodup) (he : e ∈ wl) :
    wl.Perm (e :: wl.filter (fun x => x.id != e.id)) := by
  induction wl with
  | nil => cases he
  | cons a t ih =>
    rw [List.map_cons, List.nodup_cons] at hnd
    obtain ⟨hain, hndt⟩ := hnd
    rcases List.mem_cons.mp he with rfl | het
    · rw [List.filter_cons, if_neg (by simp)]
      have hft : t.filter (fun x => x.id != e.id) = t := by
        rw [List.filter_eq_self]
        intro x hx
        simp only [bne_iff_ne, ne_eq, decide_eq_true_eq]
        intro hxe
        exact hain (hxe ▸ List.mem_map_of_mem (fun y => y.id) hx)
      rw [hft]
    · have hae : (a.id != e.id) = true := by
        simp only [bne_iff_ne, ne_eq, decide_eq_true_eq]
        intro haid
        exact hain (haid ▸ List.mem_map_of_mem (fun y => y.id) het)
      rw [List.filter_cons, if_pos hae]
      exact ((ih hndt het).cons a).trans (List.Perm.swap e a _)

/-- `WaitlistRepository.remove` of a member entry keeps the positions
exactly `1..N-1` and keeps the ids distinct. -/
theorem remove_positions {wl : List WaitlistEntry} {e : WaitlistEntry}
    (hnd : (wl.map (fun x => x.id)).Nodup) (he : e ∈ wl)
    (hperm : (wl.map (fun x => x.position)).Perm (List.range' 1 wl.length)) :
    ((WaitlistRepository.remove wl e).map (fun x => x.position)).Perm
      (List.range' 1 (WaitlistRepository.remove wl e).length) ∧
    ((WaitlistRepository.remove wl e).map (fun x => x.id)).Nodup := by
  have hfp : wl.Perm (e :: wl.filter (fun x => x.id != e.id)) := filter_ne_id_perm hnd he
  have hlen : wl.length = (wl.filter (fun x => x.id != e.id)).length + 1 := by
    have := hfp.length_eq
    simpa using this
  have hpos1 : (e.position ::
      (wl.filter (fun x => x.id != e.id)).map (fun x => x.position)).Perm
      (List.range' 1 wl.length) := by
    have h2 := (hfp.map (fun x => x.position)).symm.trans hperm
    simpa using h2
  obtain ⟨hpmem, hperase⟩ := List.cons_perm_iff_perm_erase.mp hpos1
  rw [List.mem_range'_1] at hpmem
  have herase : (List.range' 1 wl.length).erase e.position =
      List.range' 1 (e.position - 1) ++
        List.range' (e.position + 1) (wl.length - e.position) := by
    rw [List.erase_range']
    have e1 : min wl.length (e.position - 1) = e.position - 1 := by omega
    have e2 : max 1 (e.position + 1) = e.position + 1 := by omega
    have e3 : min 1 (e.position + 1) + wl.length - (e.position + 1) =
        wl.length - e.position := by omega
    rw [e1, e2, e3]
  have hmapeq : (WaitlistRepository.remove wl e).map (fun x => x.position) =
      ((wl.filter (fun x => x.id != e.id)).map (fun x => x.position)).map
        (fun q => if e.position < q then q - 1 else q) := by
    unfold WaitlistRepository.remove
    rw [List.map_map, List.map_map]
    apply List.map_congr_left
    intro x hx
    by_cases hq : e.position < x.position
    · simp [hq]
    · simp [hq]
  have hshift : ((List.range' 1 wl.length).erase e.position).map
      (fun q => if e.position < q then q - 1 else q) =
      List.range' 1 (wl.length - 1) := by
    rw [herase, List.map_append]
    have hm1 : (List.range' 1 (e.position - 1)).map
        (fun q => if e.position < q then q - 1 else q) =
        List.range' 1 (e.position - 1) := by
      have hcg : ∀ q ∈ List.range' 1 (e.position - 1),
          (fun q => if e.position < q then q - 1 else q) q = id q := by
        intro q hq
        rw [List.mem_range'_1] at hq
        show (if e.position < q then q - 1 else q) = id q
        rw [if_neg (by omega)]
        rfl
      rw [List.map_congr_left hcg, List.map_id]
    have hm2 : (List.range' (e.position + 1) (wl.length - e.position)).map
        (fun q => if e.position < q then q - 1 else q) =
        List.range' e.position (wl.length - e.position) := by
      have hcg : ∀ q ∈ List.range' (e.position + 1) (wl.length - e.position),
          (fun q => if e.position < q then q - 1 else q) q = q - 1 := by
        intro q hq
        rw [List.mem_range'_1] at hq
        show (if e.position < q then q - 1 else q) = q - 1
        rw [if_pos (by omega)]
      rw [List.map_congr_left hcg]
      have h3 : List.map (fun x => x - 1)
          (List.range' (e.position + 1) (wl.length - e.position)) =
          List.range' (e.position + 1 - 1) (wl.length - e.position) :=
        List.map_sub_range' 1 (e.position + 1) (wl.length - e.position) (by omega)
      simpa using h3
    rw [hm1, hm2]
    have h4 : List.range' e.position (wl.length - e.position) =
        List.range' (1 + (e.position - 1)) (wl.length - e.position) := by
      congr 1
      omega
    rw [h4, List.range'_append_1]
    congr 1
    omega
  constructor
  · have hlen2 : (WaitlistRepository.remove wl e).length = wl.length - 1 := by
      unfold WaitlistRepository.remove
      rw [List.length_map]
      omega
    rw [hmapeq, hlen2, ← hshift]
    exact hperase.map _
  · have hids : (WaitlistRepository.remove wl e).map (fun x => x.id) =
        (wl.filter (fun x => x.id != e.id)).map (fun x => x.id) := by
      unfold WaitlistRepository.remove
      rw [List.map_map]
      apply List.map_congr_left
      intro x hx
      by_cases hq : e.position < x.position
      · simp [hq]
      · simp [hq]
    rw [hids]
    exact List.Nodup.sublist (List.Sublist.map (fun x => x.id) (List.filter_sublist wl)) hnd

/-- A successful `join_waitlist` appends exactly one entry, with the
fresh id and the `max+1` position. -/
theorem join_ok_shape {s : SysState} {userId pref newEntryId : String}
    {s' : SysState} {w : WaitlistEntry}
    (h : join_waitlist s userId pref newEntryId = .ok (s', w)) :
    s'.waitlist = s.waitlist ++
      [{ id := newEntryId, userId := userId,
         position := WaitlistRepository.get_next_position s.waitlist,
         notificationPreference := prefMap pref }] := by
  unfold join_waitlist at h
  rcases hev : s.event with _ | event <;> rw [hev] at h
  · simp at h
  · dsimp only at h
    by_cases h1 : event.status ≠ EventStatus.published
    · rw [if_pos h1] at h
      simp at h
    · rw [if_neg h1] at h
      by_cases h2 : (RegistrationRepository.get_by_user_and_event s userId).isSome = true
      · rw [if_pos h2] at h
        simp at h
      · rw [if_neg h2] at h
        by_cases h3 : (WaitlistRepository.get_by_user_and_event s userId).isSome = true
        · rw [if_pos h3] at h
          simp at h
        · rw [if_neg h3] at h
          by_cases h4 : event.registeredCount < event.capacity
          · rw [if_pos h4] at h
            simp at h
          · rw [if_neg h4] at h
            simp only [Except.ok.injEq, Prod.mk.injEq] at h
            obtain ⟨hA, -⟩ := h
            subst hA
            rfl

/-- A successful `leave_waitlist` removes exactly the resolved entry. -/
theorem leave_ok_shape {s : SysState} {waitlistId userId : String} {s' : SysState}
    {w : WaitlistEntry}
    (h : leave_waitlist s waitlistId userId = .ok (s', w)) :
    ∃ entry, WaitlistRepository.get_by_id s waitlistId = some entry ∧
      s'.waitlist = WaitlistRepository.remove s.waitlist entry := by
  unfold leave_waitlist at h
  rcases hw : WaitlistRepository.get_by_id s waitlistId with _ | entry <;> rw [hw] at h
  · simp at h
  · dsimp only at h
    by_cases h1 : entry.userId ≠ userId
    · rw [if_pos h1] at h
      simp at h
    · rw [if_neg h1] at h
      rcases hev : s.event with _ | event <;> rw [hev] at h <;>
        simp only [Except.ok.injEq, Prod.mk.injEq] at h <;>
        obtain ⟨hA, -⟩ := h <;> subst hA <;> exact ⟨entry, rfl, rfl⟩

/-- Every completed waitlist operation preserves well-formedness:
distinct row ids and positions exactly `1..N`. -/
theorem applyWaitlistOp_preserves_wf (s : SysState) (op : WaitlistOp)
    (hok : waitlistOpOk s op = true) (hwf : WaitlistWF s) :
    WaitlistWF (applyWaitlistOp s op) := by
  obtain ⟨hnd, hperm⟩ := hwf
  cases op with
  | join userId pref newEntryId =>
    have happ : applyWaitlistOp s (WaitlistOp.join userId pref newEntryId) =
        exceptState s (join_waitlist s userId pref newEntryId) := rfl
    rw [happ]
    rcases h : join_waitlist s userId pref newEntryId with e | p
    · exact ⟨hnd, hperm⟩
    · obtain ⟨s', w⟩ := p
      show WaitlistWF s'
      have hwl := join_ok_shape h
      constructor
      · rw [hwl, List.map_append]
        dsimp only [List.map_cons, List.map_nil]
        rw [List.Perm.nodup_iff (List.perm_append_singleton _ _), List.nodup_cons]
        constructor
        · intro hin
          obtain ⟨x, hx, hxid⟩ := List.mem_map.mp hin
          have hx2 := List.all_eq_true.mp hok x hx
          simp only [bne_iff_ne, ne_eq, decide_eq_true_eq] at hx2
          exact hx2 hxid
        · exact hnd
      · rw [hwl]
        exact join_positions _ (get_next_position_of_perm hperm) hperm
  | leave waitlistId userId =>
    have happ : applyWaitlistOp s (WaitlistOp.leave waitlistId userId) =
        exceptState s (leave_waitlist s waitlistId userId) := rfl
    rw [happ]
    rcases h : leave_waitlist s waitlistId userId with e | p
    · exact ⟨hnd, hperm⟩
    · obtain ⟨s', w⟩ := p
      show WaitlistWF s'
      obtain ⟨entry, hfound, hwl⟩ := leave_ok_shape h
      have hmem : entry ∈ s.waitlist := List.mem_of_find?_eq_some hfound
      obtain ⟨hp, hn⟩ := remove_positions hnd hmem hperm
      exact ⟨by rw [hwl]; exact hn, by rw [hwl]; exact hp⟩
  | promote a b c =>
    have happ : applyWaitlistOp s (WaitlistOp.promote a b c) =
        (promote_from_waitlist s a b c).1 := rfl
    rw [happ]
    obtain ⟨-, hw2⟩ := promote_effect_bounds s a b c
    rcases hw2 with h' | ⟨entry, hent, h'⟩
    · exact ⟨by rw [h']; exact hnd, by rw [h']; exact hperm⟩
    · have hmem := get_first_in_line_mem hent
      obtain ⟨hp, hn⟩ := remove_positions hnd hmem hperm
      exact ⟨by rw [h']; exact hn, by rw [h']; exact hp⟩

/-- C6: for every state reachable from an empty waitlist by completed
join, leave, and promotion operations, the waitlist positions are
exactly the contiguous sequence `1..N` with no duplicates (stated as a
permutation of `[1, ..., N]`). -/
theorem C6_waitlist_positions_contiguous (s : SysState) (h : WaitlistReachable s) :
    (s.waitlist.map (fun x => x.position)).Perm (List.range' 1 s.waitlist.length) := by
  suffices hwf : WaitlistWF s from hwf.2
  induction h with
  | empty s h0 =>
    constructor
    · rw [h0]
      simp
    · rw [h0]
      simp
  | step s op hs hok ih => exact applyWaitlistOp_preserves_wf s op hok ih

/-- C6 witness: the positions after a concrete join onto the empty
waitlist (via one reachability step). -/
theorem C6_waitlist_positions_contiguous_witness :
    (((applyWaitlistOp c6Base (WaitlistOp.join "bob" "email" "w9")).waitlist.map
        (fun x => x.position)).Perm
      (List.range' 1 (applyWaitlistOp c6Base (WaitlistOp.join "bob" "email" "w9")).waitlist.length)) :=
  C6_waitlist_positions_contiguous _
    (WaitlistReachable.step c6Base (WaitlistOp.join "bob" "email" "w9")
      (WaitlistReachable.empty c6Base rfl) rfl)

/-! ## Claim C1: ledger bounds under the service operations -/

/-- The Bool-level bounds agree with the inductive invariant. -/
theorem ledgerInv_iff (s : SysState) :
    (capacityAtLeastOne s = true ∧ ledgerBounds s = true) ↔ LedgerInv s := by
  unfold capacityAtLeastOne ledgerBounds LedgerInv
  rcases hse : s.event with _ | e
  · simp
  · simp [and_assoc]

/-- A passing capacity check means the remaining capacity covers the
requested party. -/
theorem capacityCheck_none {event : EventData} {guests : List Guest}
    (h : capacityCheck event guests = none) :
    ¬ event.capacity - event.registeredCount < 1 + (guests.length : Int) := by
  intro hlt
  unfold capacityCheck at h
  rw [if_pos hlt] at h
  by_cases h0 : event.capacity - event.registeredCount = 0
  · rw [if_pos h0] at h
    exact Option.noConfusion h
  · rw [if_neg h0] at h
    exact Option.noConfusion h

/-- A successful registration keeps the ledger bounds: it only commits
after the capacity check covering the whole party. -/
theorem create_preserves_inv {s : SysState} {userId : String} {guests : List Guest}
    {sessions : List String} {a b c : String} {s' : SysState} {r : Registration}
    (h : create_registration s userId guests sessions a b c = .ok (s', r))
    (hinv : LedgerInv s) : LedgerInv s' := by
  unfold create_registration at h
  rcases hev : s.event with _ | event <;> rw [hev] at h
  · simp at h
  · dsimp only at h
    rcases hpc : preChecks event s userId guests with _ | e <;> rw [hpc] at h
    · dsimp only at h
      rcases hcc : capacityCheck event guests with _ | e <;> rw [hcc] at h
      · dsimp only at h
        simp only [Except.ok.injEq, Prod.mk.injEq] at h
        obtain ⟨hA, -⟩ := h
        subst hA
        intro e0 he0
        have he0' : { event with
            registeredCount := event.registeredCount + (1 + (guests.length : Int)) } = e0 :=
          Option.some.inj he0
        subst he0'
        obtain ⟨hc1, hc2, hc3, hc4⟩ := hinv event hev
        have hcap := capacityCheck_none hcc
        dsimp only
        omega
      · simp at h
    · simp at h

/-- A successful waitlist join keeps the ledger bounds: it only
increments `waitlistCount`. -/
theorem join_preserves_inv {s : SysState} {userId pref newEntryId : String}
    {s' : SysState} {w : WaitlistEntry}
    (h : join_waitlist s userId pref newEntryId = .ok (s', w))
    (hinv : LedgerInv s) : LedgerInv s' := by
  unfold join_waitlist at h
  rcases hev : s.event with _ | event <;> rw [hev] at h
  · simp at h
  · dsimp only at h
    by_cases h1 : event.status ≠ EventStatus.published
    · rw [if_pos h1] at h
      simp at h
    · rw [if_neg h1] at h
      by_cases h2 : (RegistrationRepository.get_by_user_and_event s userId).isSome = true
      · rw [if_pos h2] at h
        simp at h
      · rw [if_neg h2] at h
        by_cases h3 : (WaitlistRepository.get_by_user_and_event s userId).isSome = true
        · rw [if_pos h3] at h
          simp at h
        · rw [if_neg h3] at h
          by_cases h4 : event.registeredCount < event.capacity
          · rw [if_pos h4] at h
            simp at h
          · rw [if_neg h4] at h
            simp only [Except.ok.injEq, Prod.mk.injEq] at h
            obtain ⟨hA, -⟩ := h
            subst hA
            intro e0 he0
            have he0' : { event with waitlistCount := event.waitlistCount + 1 } = e0 :=
              Option.some.inj he0
            subst he0'
            obtain ⟨hc1, hc2, hc3, hc4⟩ := hinv event hev
            dsimp only
            omega

/-- A successful waitlist leave keeps the ledger bounds: the
`waitlistCount` decrement is clamped at 0. -/
theorem leave_preserves_inv {s : SysState} {waitlistId userId : String}
    {s' : SysState} {w : WaitlistEntry}
    (h : leave_waitlist s waitlistId userId = .ok (s', w))
    (hinv : LedgerInv s) : LedgerInv s' := by
  unfold leave_waitlist at h
  rcases hw : WaitlistRepository.get_by_id s waitlistId with _ | entry <;> rw [hw] at h
  · simp at h
  · dsimp only at h
    by_cases h1 : entry.userId ≠ userId
    · rw [if_pos h1] at h
      simp at h
    · rw [if_neg h1] at h
      rcases hev : s.event with _ | event <;> rw [hev] at h
      · simp only [Except.ok.injEq, Prod.mk.injEq] at h
        obtain ⟨hA, -⟩ := h
        subst hA
        intro e0 he0
        have h5 : (none : Option EventData) = some e0 := he0
        exact Option.noConfusion h5
      · simp only [Except.ok.injEq, Prod.mk.injEq] at h
        obtain ⟨hA, -⟩ := h
        subst hA
        intro e0 he0
        have he0' : { event with waitlistCount :=
            if event.waitlistCount - 1 < 0 then 0 else event.waitlistCount - 1 } = e0 :=
          Option.some.inj he0
        subst he0'
        obtain ⟨hc1, hc2, hc3, hc4⟩ := hinv event hev
        dsimp only
        rw [int_clamp_eq_max]
        omega

/-- After a successful `cancelCore` on an event with capacity ≥ 1, the
ledger still has a free seat: `registeredCount + 1 ≤ capacity`. -/
theorem cancelCore_strong_bounds {s : SysState} {registrationId userId : String} {now : Nat}
    {s2 : SysState} {c : Registration}
    (h : cancelCore s registrationId userId now = .ok (s2, c)) (hinv : LedgerInv s) :
    ∀ e, s2.event = some e →
      1 ≤ e.capacity ∧ 0 ≤ e.registeredCount ∧ e.registeredCount + 1 ≤ e.capacity ∧
        0 ≤ e.waitlistCount := by
  unfold cancelCore at h
  rcases hf : RegistrationRepository.get_by_id s registrationId with _ | reg <;> rw [hf] at h
  · simp at h
  · dsimp only at h
    by_cases h1 : reg.userId ≠ userId
    · rw [if_pos h1] at h
      simp at h
    · rw [if_neg h1] at h
      by_cases h2 : reg.status = RegistrationStatus.cancelled
      · rw [if_pos h2] at h
        simp at h
      · rw [if_neg h2] at h
        rcases hev : s.event with _ | event <;> rw [hev] at h
        · simp only [Except.ok.injEq, Prod.mk.injEq] at h
          obtain ⟨hA, -⟩ := h
          subst hA
          intro e0 he0
          have h5 : (none : Option EventData) = some e0 := he0
          exact Option.noConfusion h5
        · simp only [Except.ok.injEq, Prod.mk.injEq] at h
          obtain ⟨hA, -⟩ := h
          subst hA
          intro e0 he0
          have he0' : { event with registeredCount :=
              if event.registeredCount - (1 + (reg.guests.length : Int)) < 0 then 0
              else event.registeredCount - (1 + (reg.guests.length : Int)) } = e0 :=
            Option.some.inj he0
          subst he0'
          obtain ⟨hc1, hc2, hc3, hc4⟩ := hinv event hev
          dsimp only
          rw [int_clamp_eq_max]
          omega

/-- When the ledger still has a free seat, a promotion — which
increments `registeredCount` by at most 1 — keeps the bounds. -/
theorem promote_preserves_inv (s : SysState) (a b c : String)
    (hpre : ∀ e, s.event = some e →
      1 ≤ e.capacity ∧ 0 ≤ e.registeredCount ∧ e.registeredCount + 1 ≤ e.capacity ∧
        0 ≤ e.waitlistCount) :
    LedgerInv (promote_from_waitlist s a b c).1 := by
  unfold promote_from_waitlist
  rcases hh : WaitlistRepository.get_first_in_line s.waitlist with _ | entry
  · intro e0 he0
    obtain ⟨h1, h2, h3, h4⟩ := hpre e0 he0
    omega
  · dsimp only
    rcases hev : s.event with _ | event
    · intro e0 he0
      rw [hev] at he0
      exact Option.noConfusion he0
    · rcases hu : UserRepository.get_by_id s entry.userId with _ | user
      · dsimp only
        intro e0 he0
        rw [hev] at he0
        obtain rfl := Option.some.inj he0
        obtain ⟨h1, h2, h3, h4⟩ := hpre _ hev
        omega
      · dsimp only
        by_cases hreg : (match RegistrationRepository.get_by_user_and_event s user.id with
            | some existing => existing.status == RegistrationStatus.confirmed
            | none => false) = true
        · rw [if_pos hreg]
          intro e0 he0
          have he0' : { event with waitlistCount :=
              if event.waitlistCount - 1 < 0 then 0 else event.waitlistCount - 1 } = e0 :=
            Option.some.inj he0
          subst he0'
          obtain ⟨h1, h2, h3, h4⟩ := hpre event hev
          dsimp only
          rw [int_clamp_eq_max]
          omega
        · rw [if_neg hreg]
          intro e0 he0
          have he0' : { event with
              registeredCount := event.registeredCount + 1,
              waitlistCount :=
                if event.waitlistCount - 1 < 0 then 0 else event.waitlistCount - 1 } = e0 :=
            Option.some.inj he0
          subst he0'
          obtain ⟨h1, h2, h3, h4⟩ := hpre event hev
          dsimp only
          rw [int_clamp_eq_max]
          omega

/-- A successful cancellation — including its built-in single
promotion — keeps the ledger bounds. -/
theorem cancel_preserves_inv {s : SysState} {registrationId userId : String} {now : Nat}
    {pa pb pc : String} {sf : SysState} {r : Registration}
    (h : cancel_registration s registrationId userId now pa pb pc = .ok (sf, r))
    (hinv : LedgerInv s) : LedgerInv sf := by
  unfold cancel_registration at h
  rcases hcc : cancelCore s registrationId userId now with e | p <;> rw [hcc] at h
  · simp at h
  · obtain ⟨s2, c⟩ := p
    have hs2 := cancelCore_strong_bounds hcc hinv
    dsimp only at h
    rcases hse : s2.event with _ | ev <;> rw [hse] at h
    · simp only [Except.ok.injEq, Prod.mk.injEq] at h
      obtain ⟨hA, -⟩ := h
      subst hA
      intro e0 he0
      rw [hse] at he0
      exact Option.noConfusion he0
    · simp only [Except.ok.injEq, Prod.mk.injEq] at h
      obtain ⟨hA, -⟩ := h
      subst hA
      exact promote_preserves_inv s2 pa pb pc hs2

/-- Every completed ledger operation preserves the invariant. -/
theorem applyLedgerOp_preserves_inv (s : SysState) (op : LedgerOp) (hinv : LedgerInv s) :
    LedgerInv (applyLedgerOp s op) := by
  cases op with
  | create userId guests sessions a b c =>
    have happ : applyLedgerOp s (LedgerOp.create userId guests sessions a b c) =
        exceptState s (create_registration s userId guests sessions a b c) := rfl
    rw [happ]
    rcases h : create_registration s userId guests sessions a b c with e | p
    · exact hinv
    · obtain ⟨s', r⟩ := p
      exact create_preserves_inv h hinv
  | cancel registrationId userId now pa pb pc =>
    have happ : applyLedgerOp s (LedgerOp.cancel registrationId userId now pa pb pc) =
        exceptState s (cancel_registration s registrationId userId now pa pb pc) := rfl
    rw [happ]
    rcases h : cancel_registration s registrationId userId now pa pb pc with e | p
    · exact hinv
    · obtain ⟨sf, r⟩ := p
      exact cancel_preserves_inv h hinv
  | join userId pref newEntryId =>
    have happ : applyLedgerOp s (LedgerOp.join userId pref newEntryId) =
        exceptState s (join_waitlist s userId pref newEntryId) := rfl
    rw [happ]
    rcases h : join_waitlist s userId pref newEntryId with e | p
    · exact hinv
    · obtain ⟨s', w⟩ := p
      exact join_preserves_inv h hinv
  | leave waitlistId userId =>
    have happ : applyLedgerOp s (LedgerOp.leave waitlistId userId) =
        exceptState s (leave_waitlist s waitlistId userId) := rfl
    rw [happ]
    rcases h : leave_waitlist s waitlistId userId with e | p
    · exact hinv
    · obtain ⟨s', w⟩ := p
      exact leave_preserves_inv h hinv

/-- C1 (amended): for every event of capacity ≥ 1 (the schema
constraint) and every sequence of completed create-registration,
cancel-registration (with its built-in single promotion), join-waitlist
and leave-waitlist operations starting from a state with
`0 ≤ registeredCount ≤ capacity` and `0 ≤ waitlistCount`, the bounds
hold after each operation commits.  A standalone promote-from-waitlist
call is excluded: it performs no capacity check and can exceed the
capacity (see the counterexample). -/
theorem C1_ledger_bounds_invariant (s : SysState) (ops : List LedgerOp)
    (hcap : capacityAtLeastOne s = true) (hb : ledgerBounds s = true) :
    ledgerBounds (ops.foldl applyLedgerOp s) = true := by
  have hinv : LedgerInv s := (ledgerInv_iff s).mp ⟨hcap, hb⟩
  suffices hsuff : ∀ t, LedgerInv t → LedgerInv (ops.foldl applyLedgerOp t) by
    exact ((ledgerInv_iff _).mpr (hsuff s hinv)).2
  induction ops with
  | nil =>
    intro t ht
    exact ht
  | cons op rest ih =>
    intro t ht
    exact ih _ (applyLedgerOp_preserves_inv t op ht)

/-- C1 witness: the bounds after a concrete cancellation (which frees a
seat and promotes the waiting user) on the full capacity-1 event. -/
theorem C1_ledger_bounds_invariant_witness :
    ledgerBounds
      ([LedgerOp.cancel "r1" "alice" 7 "n1" "t1" "q1"].foldl applyLedgerOp c1State) = true :=
  C1_ledger_bounds_invariant c1State [LedgerOp.cancel "r1" "alice" 7 "n1" "t1" "q1"] rfl rfl

/-- C10 witness: cancelling the concrete registration whose event row is
gone. -/
theorem C10_cancel_without_event_witness :
    cancel_registration c10State "r10" "alice" 99 "p" "q" "r" =
      .ok ({ c10State with registrations := c10State.registrations.map (fun r =>
              if r.id == c10Reg.id then
                { c10Reg with status := RegistrationStatus.cancelled, cancelledAt := some 99 }
              else r) },
            { c10Reg with status := RegistrationStatus.cancelled, cancelledAt := some 99 }) ∧
    (exceptState c10State (cancel_registration c10State "r10" "alice" 99 "p" "q" "r")).waitlist =
      c10State.waitlist ∧
    (exceptState c10State (cancel_registration c10State "r10" "alice" 99 "p" "q" "r")).event =
      none :=
  C10_cancel_without_event c10State "r10" "alice" 99 "p" "q" "r" c10Reg rfl rfl
    (by intro h; cases h) rfl

end TerpSpark
